import Mathlib

/-!
Verification of the variant-allocation and feature-flag-key logic of
`frontend/src/scenes/experiments/create-experiment/CreateExperiment.tsx`
(`createExperimentLogic`), embedded shallowly: JS strings are `String`,
JS numbers holding integer values are `Int` (`Nat` for counters and
indices), the fetched registry is a `Finset String` respectively a list
of records, and stateful kea logic is explicit state passing.
-/

namespace CreateExperiment

/-- Membership in the regex character class `[A-Za-z0-9-_]` used by
`generateFeatureFlagKey` (pattern `/[^A-Za-z0-9-_]+/g`): ASCII letters
(65-90 upper, 97-122 lower), digits (48-57), dash and underscore. -/
def isAllowedChar (c : Char) : Bool :=
  (65 ≤ c.toNat && c.toNat ≤ 90) || (97 ≤ c.toNat && c.toNat ≤ 122) ||
    (48 ≤ c.toNat && c.toNat ≤ 57) || c == '-' || c == '_'

/-- Character-level model of `.replace(/[^A-Za-z0-9-_]+/g, '-')`: every
maximal run of characters outside the class becomes one `'-'`.  The flag
`inRun` records whether the previous character belonged to such a run. -/
def collapseDisallowed : Bool → List Char → List Char
  | _, [] => []
  | inRun, c :: rest =>
    if isAllowedChar c then c :: collapseDisallowed false rest
    else if inRun then collapseDisallowed true rest
    else '-' :: collapseDisallowed true rest

/-- Model of the replace of the source's second regex, "one or more
dashes anchored at the end", by the empty string: strip trailing dashes. -/
def stripTrailingDashes (l : List Char) : List Char :=
  (l.reverse.dropWhile (fun c => c == '-')).reverse

/-- Model of the replace of the source's third regex, "one or more dashes
anchored at the start", by the empty string: strip leading dashes. -/
def stripLeadingDashes (l : List Char) : List Char :=
  l.dropWhile (fun c => c == '-')

/-- The `baseKey` computation inside `generateFeatureFlagKey`:
lowercase the name, collapse runs of disallowed characters to `'-'`,
strip trailing dashes, strip leading dashes (in the source's order).
`Char.toLower` is the ASCII model of `String.prototype.toLowerCase`. -/
def normalizeKeyBase (name : String) : String :=
  ⟨stripLeadingDashes (stripTrailingDashes
      (collapseDisallowed false (name.data.map Char.toLower)))⟩

/-- Decimal digit character. -/
def digitChar (d : Nat) : Char := Char.ofNat (48 + d)

/-- Fuel-driven decimal expansion of a number, most significant digit
first; fuel at least `n` always suffices to print `n`. -/
def toDecAux : Nat → Nat → List Char
  | 0, _ => []
  | _ + 1, 0 => []
  | fuel + 1, n + 1 => toDecAux fuel ((n + 1) / 10) ++ [digitChar ((n + 1) % 10)]

/-- Decimal rendering of a natural number, modelling the JS template
string conversion of `counter` in the candidate keys. -/
def natToString (n : Nat) : String :=
  if n = 0 then "0" else ⟨toDecAux n n⟩

/-- The `k`-th value taken by `key` in the collision loop of
`generateFeatureFlagKey`: the base key itself before the loop runs, and
the concatenation with `-` and the counter for the `k`-th retry. -/
def candidateKey (baseKey : String) : Nat → String
  | 0 => baseKey
  | k + 1 => baseKey ++ "-" ++ natToString (k + 1)

lemma toDecAux_length_ge (m : Nat) :
    ∀ fuel n, 10 ^ m ≤ n → n ≤ fuel → m + 1 ≤ (toDecAux fuel n).length := by
  induction m with
  | zero =>
    intro fuel n h1 h2
    match fuel, n with
    | 0, n => omega
    | fuel + 1, 0 => simp at h1
    | fuel + 1, n + 1 => simp [toDecAux]
  | succ m ih =>
    intro fuel n h1 h2
    have h10 : 10 ≤ n := le_trans (by calc (10:Nat) = 10 ^ 1 := by norm_num
                                         _ ≤ 10 ^ (m + 1) := Nat.pow_le_pow_right (by norm_num) (by omega)) h1
    match fuel, n with
    | 0, n => omega
    | fuel + 1, 0 => omega
    | fuel + 1, n + 1 =>
      have hdiv1 : 10 ^ m ≤ (n + 1) / 10 := by
        rw [Nat.le_div_iff_mul_le (by norm_num)]
        calc 10 ^ m * 10 = 10 ^ (m + 1) := by ring
          _ ≤ n + 1 := h1
      have hdiv2 : (n + 1) / 10 ≤ fuel := by
        have : (n + 1) / 10 < n + 1 := Nat.div_lt_self (by omega) (by norm_num)
        omega
      have := ih fuel ((n + 1) / 10) hdiv1 hdiv2
      simp only [toDecAux, List.length_append, List.length_cons, List.length_nil]
      omega

lemma natToString_length_ge (m : Nat) : m + 1 ≤ (natToString (10 ^ m)).length := by
  have h : (10:Nat) ^ m ≠ 0 := by positivity
  unfold natToString
  rw [if_neg h]
  exact toDecAux_length_ge m _ _ le_rfl le_rfl

lemma candidateKey_length_of_ne_zero (base : String) (k : Nat) (hk : k ≠ 0) :
    (candidateKey base k).length = base.length + 1 + (natToString k).length := by
  match k with
  | 0 => omega
  | k + 1 =>
    show (base ++ "-" ++ natToString (k + 1)).length = _
    rw [String.length_append, String.length_append]
    rfl

/-- The collision loop always finds a free candidate: some candidate is
longer than every reserved key. -/
lemma exists_candidateKey_not_mem (base : String) (reserved : Finset String) :
    ∃ k, candidateKey base k ∉ reserved := by
  classical
  refine ⟨10 ^ reserved.sup String.length, fun hmem => ?_⟩
  have hle : (candidateKey base (10 ^ reserved.sup String.length)).length ≤
      reserved.sup String.length := Finset.le_sup hmem
  have hk0 : (10:Nat) ^ reserved.sup String.length ≠ 0 := by positivity
  rw [candidateKey_length_of_ne_zero base _ hk0] at hle
  have := natToString_length_ge (reserved.sup String.length)
  omega

/-- Embedding of `generateFeatureFlagKey` (CreateExperiment.tsx): derive
the base key from the name, then return the first candidate (base, then
base-1, base-2, ...) that is not in `unavailableKeys`; the `while` loop
is rendered as the least index whose candidate is free, which exists by
`exists_candidateKey_not_mem`. -/
def generateFeatureFlagKey (name : String) (unavailableKeys : Finset String) : String :=
  candidateKey (normalizeKeyBase name)
    (Nat.find (exists_candidateKey_not_mem (normalizeKeyBase name) unavailableKeys))

lemma generateFeatureFlagKey_eq_of (name : String) (reserved : Finset String) (k : Nat)
    (h1 : candidateKey (normalizeKeyBase name) k ∉ reserved)
    (h2 : ∀ j, j < k → candidateKey (normalizeKeyBase name) j ∈ reserved) :
    generateFeatureFlagKey name reserved = candidateKey (normalizeKeyBase name) k := by
  unfold generateFeatureFlagKey
  congr 1
  rw [Nat.find_eq_iff]
  exact ⟨h1, fun n hn => not_not_intro (h2 n hn)⟩

example : normalizeKeyBase "Pricing Page!!" = "pricing-page" := by decide
example : natToString 12 = "12" := by decide
example : candidateKey "test" 2 = "test-2" := by decide
example : normalizeKeyBase "!!!" = "" := by decide

/-- One entry of `parameters.feature_flag_variants`
(`MultivariateFlagVariant`): a key, an optional display name (empty
string when absent) and an integer rollout percentage. -/
structure MultivariateFlagVariant where
  key : String
  name : String
  rollout_percentage : Int
deriving DecidableEq

/-- The `variantPercentageSum` selector:
`variants.reduce((sum, variant) => sum + (variant.rollout_percentage || 0), 0)`. -/
def variantPercentageSum (variants : List MultivariateFlagVariant) : Int :=
  variants.foldl (fun sum variant => sum + variant.rollout_percentage) 0

/-- The warning banner in the view is rendered exactly when
`variantPercentageSum !== 100`. -/
def rolloutWarningShown (variants : List MultivariateFlagVariant) : Bool :=
  variantPercentageSum variants != 100

/-- The `addVariant` listener: append one variant whose key is
`variant-` followed by the new count, with empty name and zero rollout. -/
def addVariant (variants : List MultivariateFlagVariant) : List MultivariateFlagVariant :=
  variants ++ [{ key := "variant-" ++ natToString (variants.length + 1),
                 name := "", rollout_percentage := 0 }]

/-- JS `Array.prototype.filter` with the index predicate `i !== index`,
as used by `removeVariant`; `i` is the running index. -/
def filterOutIndex {α : Type} (index : Nat) : Nat → List α → List α
  | _, [] => []
  | i, a :: rest =>
    if i = index then filterOutIndex index (i + 1) rest
    else a :: filterOutIndex index (i + 1) rest

/-- The `removeVariant` listener: when the list has at most 2 variants it
shows the toast error and leaves the list unchanged, otherwise it filters
out the element at `index`.  The second component is the toast message. -/
def removeVariant (variants : List MultivariateFlagVariant) (index : Nat) :
    List MultivariateFlagVariant × Option String :=
  if variants.length ≤ 2 then
    (variants, some "Experiments must have at least 2 variants")
  else (filterOutIndex index 0 variants, none)

/-- `Math.round(100 / n)` for a positive integer `n`: rounding half away
from zero of the exact rational 100 / n, computed as the floor of
(200 + n) / (2 n).  For every n the double-precision evaluation in the
source agrees with this exact value (the quotient 100 / n is never close
enough to a half-integer boundary without being exactly on it). -/
def jsRound100Div (n : Nat) : Nat := (200 + n) / (2 * n)

/-- JS `Array.prototype.map` with an index argument, starting at `i`. -/
def mapWithIdx {α β : Type} (f : Nat → α → β) : Nat → List α → List β
  | _, [] => []
  | i, a :: rest => f i a :: mapWithIdx f (i + 1) rest

/-- The `distributeVariantsEqually` listener: no-op on an empty list;
otherwise give every variant `Math.round(100 / numVariants)` and absorb
the rounding error `delta` in the last variant. -/
def distributeVariantsEqually (variants : List MultivariateFlagVariant) :
    List MultivariateFlagVariant :=
  let numVariants := variants.length
  if numVariants = 0 then variants
  else
    let percentageRounded : Int := (jsRound100Div numVariants : Nat)
    let delta : Int := percentageRounded * (numVariants : Int) - 100
    mapWithIdx (fun index variant =>
      { variant with rollout_percentage :=
          if index = numVariants - 1 then percentageRounded - delta
          else percentageRounded }) 0 variants

/-- Character-level model of `String.prototype.trim`: drop whitespace
from both ends (ASCII whitespace model). -/
def jsTrim (s : String) : String :=
  ⟨((s.data.dropWhile Char.isWhitespace).reverse.dropWhile Char.isWhitespace).reverse⟩

/-- A record of the feature-flag registry, reduced to the only field the
logic reads (`flag.key`). -/
structure FeatureFlagType where
  key : String
deriving DecidableEq

/-- Outcome of the remote registry lookup awaited by
`validateFeatureFlagKey`: the result list on success, or a failure. -/
inductive RegistryResponse
  | ok (results : List FeatureFlagType)
  | err
deriving DecidableEq

/-- The actions dispatched by one run of the `validateFeatureFlagKey`
loader body: the `featureFlagKeyValidationError` message set by the
reducer (`none` after a success), the returned availability payload, and
whether the remote lookup was issued at all. -/
structure ValidationStep where
  error : Option String
  value : Option Bool
  remoteCalled : Bool
deriving DecidableEq

/-- Embedding of the `validateFeatureFlagKey` loader body: an empty
(after trimming) key fails immediately with the required message and no
remote call; otherwise the result list is searched for an exact key
match (taken), else the key is available; a failed lookup yields the
soft validation-error message. -/
def validateFeatureFlagKey (key : String) (response : RegistryResponse) : ValidationStep :=
  if jsTrim key = "" then
    { error := some "Feature flag key is required", value := none, remoteCalled := false }
  else
    match response with
    | .err =>
      { error := some "Error validating feature flag key", value := none, remoteCalled := true }
    | .ok results =>
      if results.any (fun flag => flag.key == key) then
        { error := some "This feature flag key is already in use",
          value := some false, remoteCalled := true }
      else { error := none, value := some true, remoteCalled := true }

/-- The slice of kea state touched by key validation: the most recently
issued candidate key (for correlation in the specification only — the
source stores no such correlation), the `featureFlagKeyValidationError`
reducer value, and the `featureFlagValidation` loader value. -/
structure ValidatorState where
  currentKey : String
  error : Option String
  value : Option Bool
deriving DecidableEq

/-- Discrete events of a validation session: dispatching
`validateFeatureFlagKey` for a candidate, and the arrival of the remote
response for a previously issued candidate. -/
inductive ValidatorEvent
  | issue (key : String)
  | arrive (key : String) (response : RegistryResponse)
deriving DecidableEq

/-- One event step.  Issuing for a blank key applies the synchronous
required-error dispatch; issuing otherwise only marks the new candidate.
An arrival applies the success/failure dispatches of the loader body
unconditionally — the source never compares the response's key with the
current candidate. -/
def stepValidator (st : ValidatorState) : ValidatorEvent → ValidatorState
  | .issue key =>
    if jsTrim key = "" then
      { st with currentKey := key, error := some "Feature flag key is required" }
    else { st with currentKey := key }
  | .arrive key response =>
    { st with error := (validateFeatureFlagKey key response).error,
              value := (validateFeatureFlagKey key response).value }

/-- Run a validation session from a state through a list of events. -/
def runValidator (st : ValidatorState) (events : List ValidatorEvent) : ValidatorState :=
  events.foldl stepValidator st

/-- Initial validation state of a fresh form. -/
def initValidatorState : ValidatorState :=
  { currentKey := "", error := none, value := none }

/-- The fields of `experimentForm` read by the save path. -/
structure ExperimentForm where
  name : String
  feature_flag_key : String
  parameters_feature_flag_variants : List MultivariateFlagVariant
deriving DecidableEq

/-- The kea-forms `errors` function of `experimentForm`: a required-field
message for a blank name and for a blank feature flag key.  (Truthiness
of the JS `&&` chain is rendered as an `Option`.) -/
def experimentFormErrors (form : ExperimentForm) : Option String × Option String :=
  ((if jsTrim form.name = "" then some "Please enter a name" else none),
   (if jsTrim form.feature_flag_key = "" then some "Please enter a feature flag key" else none))

/-- Modelled from the spec: `hasFormErrors` (lib/utils, not part of the
provided sources) — true when any field of the errors object holds an
error. -/
def hasFormErrors (errors : Option String × Option String) : Bool :=
  errors.1.isSome || errors.2.isSome

/-- The feature-flag mode toggle of the exposure section. -/
inductive FeatureFlagMode
  | new
  | existing
deriving DecidableEq

/-- Decision taken by the `saveAsDraft` listener: `true` exactly when it
reaches `submitExperimentForm`.  In `existing` mode without a selected
flag it stops with a toast; with form errors (blank name or blank key)
it stops silently; otherwise it submits.  No other condition is
checked — in particular the variant percentage sum is not. -/
def saveAsDraftSubmits (mode : FeatureFlagMode) (selectedFeatureFlag : Option FeatureFlagType)
    (form : ExperimentForm) : Bool :=
  if mode = FeatureFlagMode.existing && selectedFeatureFlag.isNone then false
  else !hasFormErrors (experimentFormErrors form)

example :
    distributeVariantsEqually
      [{ key := "control", name := "", rollout_percentage := 50 },
       { key := "test", name := "", rollout_percentage := 50 },
       { key := "test-2", name := "", rollout_percentage := 0 }] =
      [{ key := "control", name := "", rollout_percentage := 33 },
       { key := "test", name := "", rollout_percentage := 33 },
       { key := "test-2", name := "", rollout_percentage := 34 }] := by decide

example :
    variantPercentageSum
      [{ key := "control", name := "", rollout_percentage := 33 },
       { key := "test", name := "", rollout_percentage := 33 },
       { key := "test-2", name := "", rollout_percentage := 34 }] = 100 := by decide

example :
    addVariant [{ key := "control", name := "", rollout_percentage := 50 },
                { key := "test", name := "", rollout_percentage := 50 }] =
      [{ key := "control", name := "", rollout_percentage := 50 },
       { key := "test", name := "", rollout_percentage := 50 },
       { key := "variant-3", name := "", rollout_percentage := 0 }] := by decide

example :
    validateFeatureFlagKey "  " RegistryResponse.err =
      { error := some "Feature flag key is required", value := none,
        remoteCalled := false } := by decide

example :
    validateFeatureFlagKey "k" (RegistryResponse.ok [{ key := "k" }]) =
      { error := some "This feature flag key is already in use",
        value := some false, remoteCalled := true } := by decide

lemma mapWithIdx_length {α β : Type} (f : Nat → α → β) :
    ∀ (l : List α) (s : Nat), (mapWithIdx f s l).length = l.length := by
  intro l
  induction l with
  | nil => intro s; rfl
  | cons a rest ih => intro s; simp [mapWithIdx, ih]

lemma mapWithIdx_getElem? {α β : Type} (f : Nat → α → β) :
    ∀ (l : List α) (s j : Nat), (mapWithIdx f s l)[j]? = l[j]?.map (f (s + j)) := by
  intro l
  induction l with
  | nil => intro s j; simp [mapWithIdx]
  | cons a rest ih =>
    intro s j
    cases j with
    | zero => simp [mapWithIdx]
    | succ j =>
      simp only [mapWithIdx, List.getElem?_cons_succ]
      rw [ih (s + 1) j]
      have harith : s + 1 + j = s + (j + 1) := by omega
      rw [harith]

lemma foldl_add_rollout (l : List MultivariateFlagVariant) :
    ∀ init : Int,
      l.foldl (fun sum variant => sum + variant.rollout_percentage) init =
        init + variantPercentageSum l := by
  induction l with
  | nil => intro init; simp [variantPercentageSum]
  | cons v rest ih =>
    intro init
    simp only [variantPercentageSum, List.foldl_cons]
    rw [ih (init + v.rollout_percentage), ih (0 + v.rollout_percentage)]
    ring

lemma variantPercentageSum_cons (v : MultivariateFlagVariant)
    (l : List MultivariateFlagVariant) :
    variantPercentageSum (v :: l) = v.rollout_percentage + variantPercentageSum l := by
  show List.foldl _ 0 (v :: l) = _
  simp only [List.foldl_cons]
  rw [foldl_add_rollout]
  ring

lemma sum_mapWithIdx_distribute (base lastShare : Int) (M : Nat) :
    ∀ (l : List MultivariateFlagVariant) (s : Nat), l ≠ [] → s + l.length = M →
      variantPercentageSum (mapWithIdx (fun index variant =>
          { variant with rollout_percentage :=
              if index = M - 1 then lastShare else base }) s l) =
        ((l.length : Int) - 1) * base + lastShare := by
  intro l
  induction l with
  | nil => intro s h; exact absurd rfl h
  | cons a rest ih =>
    intro s hne hM
    cases rest with
    | nil =>
      have hs : s = M - 1 := by simp at hM; omega
      simp [mapWithIdx, variantPercentageSum_cons, variantPercentageSum, hs]
    | cons b rest2 =>
      have hsne : s ≠ M - 1 := by simp at hM; omega
      have hstep : mapWithIdx (fun index variant =>
          { variant with rollout_percentage :=
              if index = M - 1 then lastShare else base }) s (a :: b :: rest2) =
          { a with rollout_percentage := if s = M - 1 then lastShare else base } ::
            mapWithIdx (fun index variant =>
              { variant with rollout_percentage :=
                  if index = M - 1 then lastShare else base }) (s + 1) (b :: rest2) := rfl
      rw [hstep, variantPercentageSum_cons,
        ih (s + 1) (by simp) (by simp at hM ⊢; omega)]
      simp only [if_neg hsne, List.length_cons]
      push_cast
      ring

/-- Claim C1: `distributeVariantsEqually` is a no-op on an empty variant
list; for N ≥ 1 variants every variant except the last receives
round(100 / N), the last receives round(100 / N) − (round(100 / N)·N − 100),
and the rollout percentages sum to exactly 100. -/
theorem distributeVariantsEqually_spec (variants : List MultivariateFlagVariant) :
    (variants.length = 0 → distributeVariantsEqually variants = variants) ∧
    (1 ≤ variants.length →
      (distributeVariantsEqually variants).length = variants.length ∧
      (∀ j v, j < variants.length - 1 →
        (distributeVariantsEqually variants)[j]? = some v →
        v.rollout_percentage = (jsRound100Div variants.length : Int)) ∧
      (∀ v, (distributeVariantsEqually variants)[variants.length - 1]? = some v →
        v.rollout_percentage =
          (jsRound100Div variants.length : Int) -
            ((jsRound100Div variants.length : Int) * (variants.length : Int) - 100)) ∧
      variantPercentageSum (distributeVariantsEqually variants) = 100) := by
  constructor
  · intro h
    unfold distributeVariantsEqually
    rw [if_pos h]
  · intro h1
    have hne : variants.length ≠ 0 := by omega
    have hlne : variants ≠ [] := by
      intro h
      rw [h] at hne
      exact hne rfl
    have hd : distributeVariantsEqually variants =
        mapWithIdx (fun index variant =>
          { variant with rollout_percentage :=
              if index = variants.length - 1 then
                (jsRound100Div variants.length : Int) -
                  ((jsRound100Div variants.length : Int) * (variants.length : Int) - 100)
              else (jsRound100Div variants.length : Int) }) 0 variants := by
      unfold distributeVariantsEqually
      rw [if_neg hne]
    refine ⟨?_, ?_, ?_, ?_⟩
    · rw [hd, mapWithIdx_length]
    · intro j v hj hsome
      rw [hd, mapWithIdx_getElem?] at hsome
      cases hv : variants[j]? with
      | none => rw [hv] at hsome; simp at hsome
      | some w =>
        rw [hv] at hsome
        simp only [Option.map_some', Option.some.injEq] at hsome
        rw [← hsome]
        simp only [Nat.zero_add]
        rw [if_neg (by omega)]
    · intro v hsome
      rw [hd, mapWithIdx_getElem?] at hsome
      cases hv : variants[variants.length - 1]? with
      | none => rw [hv] at hsome; simp at hsome
      | some w =>
        rw [hv] at hsome
        simp only [Option.map_some', Option.some.injEq] at hsome
        rw [← hsome]
        simp
    · rw [hd, sum_mapWithIdx_distribute _ _ variants.length variants 0 hlne (by omega)]
      ring

/-- Witness for C1 at a concrete 3-variant list. -/
theorem distributeVariantsEqually_spec_witness :
    1 ≤ ([{ key := "control", name := "", rollout_percentage := 50 },
          { key := "test", name := "", rollout_percentage := 50 },
          { key := "test-2", name := "", rollout_percentage := 0 }] :
            List MultivariateFlagVariant).length ∧
    variantPercentageSum (distributeVariantsEqually
      [{ key := "control", name := "", rollout_percentage := 50 },
       { key := "test", name := "", rollout_percentage := 50 },
       { key := "test-2", name := "", rollout_percentage := 0 }]) = 100 :=
  ⟨by decide,
   ((distributeVariantsEqually_spec
      [{ key := "control", name := "", rollout_percentage := 50 },
       { key := "test", name := "", rollout_percentage := 50 },
       { key := "test-2", name := "", rollout_percentage := 0 }]).2 (by decide)).2.2.2⟩

lemma filterOutIndex_eq {α : Type} :
    ∀ (l : List α) (index start : Nat),
      filterOutIndex index start l =
        if index < start then l else l.eraseIdx (index - start) := by
  intro l
  induction l with
  | nil => intro index start; simp [filterOutIndex]
  | cons a rest ih =>
    intro index start
    simp only [filterOutIndex]
    by_cases h : start = index
    · subst h
      rw [if_pos rfl, ih, if_pos (Nat.lt_succ_self start),
        if_neg (lt_irrefl start), Nat.sub_self]
      rfl
    · rw [if_neg h, ih]
      by_cases h2 : index < start
      · rw [if_pos (show index < start + 1 by omega), if_pos h2]
      · rw [if_neg (show ¬ index < start + 1 by omega), if_neg h2,
          show index - start = (index - (start + 1)) + 1 by omega]
        rfl

lemma removeVariant_fst_eq (variants : List MultivariateFlagVariant) (index : Nat)
    (h : 2 < variants.length) :
    (removeVariant variants index).1 = variants.eraseIdx index := by
  unfold removeVariant
  rw [if_neg (by omega)]
  rw [filterOutIndex_eq]
  simp

/-- Claim C8: `removeVariant` on a list of at most 2 variants is rejected
with the user-visible toast and the list is unchanged; on a longer list
and a valid index it deletes exactly the element at that index, shifting
the later elements down by one, without touching any remaining share. -/
theorem removeVariant_spec (variants : List MultivariateFlagVariant) (index : Nat) :
    (variants.length ≤ 2 →
      removeVariant variants index =
        (variants, some "Experiments must have at least 2 variants")) ∧
    (2 < variants.length → index < variants.length →
      (removeVariant variants index).2 = none ∧
      (removeVariant variants index).1.length = variants.length - 1 ∧
      (∀ j, j < index → (removeVariant variants index).1[j]? = variants[j]?) ∧
      (∀ j, index ≤ j → (removeVariant variants index).1[j]? = variants[j + 1]?)) := by
  constructor
  · intro h
    unfold removeVariant
    rw [if_pos h]
  · intro h2 hidx
    refine ⟨?_, ?_, ?_, ?_⟩
    · unfold removeVariant
      rw [if_neg (by omega)]
    · rw [removeVariant_fst_eq variants index h2, List.length_eraseIdx_of_lt hidx]
    · intro j hj
      rw [removeVariant_fst_eq variants index h2,
        List.getElem?_eraseIdx_of_lt variants index j hj]
    · intro j hj
      rw [removeVariant_fst_eq variants index h2,
        List.getElem?_eraseIdx_of_ge variants index j hj]

/-- Witness for C8: rejection on a 2-variant list and acceptance on a
3-variant list. -/
theorem removeVariant_spec_witness :
    removeVariant [{ key := "control", name := "", rollout_percentage := 50 },
                   { key := "test", name := "", rollout_percentage := 50 }] 0 =
      ([{ key := "control", name := "", rollout_percentage := 50 },
        { key := "test", name := "", rollout_percentage := 50 }],
        some "Experiments must have at least 2 variants") ∧
    (removeVariant [{ key := "a", name := "", rollout_percentage := 40 },
                    { key := "b", name := "", rollout_percentage := 30 },
                    { key := "c", name := "", rollout_percentage := 30 }] 1).2 = none :=
  ⟨(removeVariant_spec [{ key := "control", name := "", rollout_percentage := 50 },
      { key := "test", name := "", rollout_percentage := 50 }] 0).1 (by decide),
   ((removeVariant_spec [{ key := "a", name := "", rollout_percentage := 40 },
      { key := "b", name := "", rollout_percentage := 30 },
      { key := "c", name := "", rollout_percentage := 30 }] 1).2 (by decide) (by decide)).1⟩

/-- Claim C9: `addVariant` appends exactly one variant, with key
`variant-` followed by the new count, empty name and zero rollout, at the
end; every pre-existing variant keeps its position and all its fields;
and neither add nor a valid remove renormalizes any remaining share
(every surviving entry of a remove equals an original entry). -/
theorem addVariant_spec (variants : List MultivariateFlagVariant) (index : Nat) :
    (addVariant variants).length = variants.length + 1 ∧
    (∀ j, j < variants.length → (addVariant variants)[j]? = variants[j]?) ∧
    (addVariant variants)[variants.length]? =
      some { key := "variant-" ++ natToString (variants.length + 1),
             name := "", rollout_percentage := 0 } ∧
    (2 < variants.length → index < variants.length →
      ∀ j v, (removeVariant variants index).1[j]? = some v →
        (j < index → variants[j]? = some v) ∧
        (index ≤ j → variants[j + 1]? = some v)) := by
  refine ⟨?_, ?_, ?_, ?_⟩
  · simp [addVariant]
  · intro j hj
    unfold addVariant
    rw [List.getElem?_append_left hj]
  · unfold addVariant
    rw [List.getElem?_concat_length]
  · intro h2 hidx j v hsome
    rw [removeVariant_fst_eq variants index h2] at hsome
    constructor
    · intro hj
      rw [← List.getElem?_eraseIdx_of_lt variants index j hj]
      exact hsome
    · intro hj
      rw [← List.getElem?_eraseIdx_of_ge variants index j hj]
      exact hsome

/-- Witness for C9 at a concrete 2-variant list (and a 3-variant list for
the remove part). -/
theorem addVariant_spec_witness :
    (addVariant [{ key := "control", name := "", rollout_percentage := 50 },
                 { key := "test", name := "", rollout_percentage := 50 }])[2]? =
      some { key := "variant-3", name := "", rollout_percentage := 0 } ∧
    (addVariant [{ key := "control", name := "", rollout_percentage := 50 },
                 { key := "test", name := "", rollout_percentage := 50 }])[0]? =
      some { key := "control", name := "", rollout_percentage := 50 } :=
  ⟨((addVariant_spec [{ key := "control", name := "", rollout_percentage := 50 },
      { key := "test", name := "", rollout_percentage := 50 }] 0).2.2.1).trans (by decide),
   (((addVariant_spec [{ key := "control", name := "", rollout_percentage := 50 },
      { key := "test", name := "", rollout_percentage := 50 }] 0).2.1) 0 (by decide)).trans
     (by decide)⟩

lemma gen_key_characterization (name : String) (reserved : Finset String) :
    ∃ k, generateFeatureFlagKey name reserved = candidateKey (normalizeKeyBase name) k ∧
      candidateKey (normalizeKeyBase name) k ∉ reserved ∧
      ∀ j, j < k → candidateKey (normalizeKeyBase name) j ∈ reserved := by
  refine ⟨Nat.find (exists_candidateKey_not_mem (normalizeKeyBase name) reserved), rfl,
    Nat.find_spec (exists_candidateKey_not_mem (normalizeKeyBase name) reserved),
    fun j hj => ?_⟩
  have := Nat.find_min (exists_candidateKey_not_mem (normalizeKeyBase name) reserved) hj
  exact not_not.mp this

/-- Claim C2: for every name and every finite reserved set, the key
returned by `generateFeatureFlagKey` is not a member of the reserved
set. -/
theorem generateFeatureFlagKey_not_reserved (name : String) (reserved : Finset String) :
    generateFeatureFlagKey name reserved ∉ reserved :=
  Nat.find_spec (exists_candidateKey_not_mem (normalizeKeyBase name) reserved)

/-- Claim C10: the collision loop of `generateFeatureFlagKey` terminates
for every name and finite reserved set — the returned key is the
candidate at some finite suffix index `k`, that candidate is outside the
reserved set, and every earlier candidate is reserved; the function is
total. -/
theorem generateFeatureFlagKey_total (name : String) (reserved : Finset String) :
    ∃ k, generateFeatureFlagKey name reserved = candidateKey (normalizeKeyBase name) k ∧
      candidateKey (normalizeKeyBase name) k ∉ reserved ∧
      ∀ j, j < k → candidateKey (normalizeKeyBase name) j ∈ reserved :=
  gen_key_characterization name reserved

/-- Claim C5: `generateFeatureFlagKey` returns the normalized base
(lowercased, runs of disallowed characters collapsed to one dash, outer
dashes stripped) when it is not reserved, and otherwise the first
suffixed candidate base-k (k starting at 1) outside the reserved set; in
particular it maps "Pricing Page!!" with nothing reserved to
"pricing-page", and "test" to "test-1" resp. "test-2" under the reserved
sets of the claim. -/
theorem generateFeatureFlagKey_spec (name : String) (reserved : Finset String) :
    (normalizeKeyBase name ∉ reserved →
      generateFeatureFlagKey name reserved = normalizeKeyBase name) ∧
    (normalizeKeyBase name ∈ reserved →
      ∃ k, 1 ≤ k ∧
        generateFeatureFlagKey name reserved = candidateKey (normalizeKeyBase name) k ∧
        candidateKey (normalizeKeyBase name) k ∉ reserved ∧
        ∀ j, 1 ≤ j → j < k → candidateKey (normalizeKeyBase name) j ∈ reserved) ∧
    generateFeatureFlagKey "Pricing Page!!" (∅ : Finset String) = "pricing-page" ∧
    generateFeatureFlagKey "test" ({"test"} : Finset String) = "test-1" ∧
    generateFeatureFlagKey "test" ({"test", "test-1"} : Finset String) = "test-2" := by
  refine ⟨?_, ?_, ?_, ?_, ?_⟩
  · intro h
    exact generateFeatureFlagKey_eq_of name reserved 0 h
      (by intro j hj; exact absurd hj (by omega))
  · intro h
    obtain ⟨k, hgen, hfree, hmin⟩ := gen_key_characterization name reserved
    have hk1 : 1 ≤ k := by
      rcases Nat.eq_zero_or_pos k with h0 | h1
      · exfalso
        rw [h0] at hfree
        exact hfree h
      · exact h1
    exact ⟨k, hk1, hgen, hfree, fun j _ hjk => hmin j hjk⟩
  · exact (generateFeatureFlagKey_eq_of "Pricing Page!!" ∅ 0 (by decide)
      (by intro j hj; exact absurd hj (by omega))).trans (by decide)
  · exact (generateFeatureFlagKey_eq_of "test" {"test"} 1 (by decide)
      (by decide)).trans (by decide)
  · exact (generateFeatureFlagKey_eq_of "test" {"test", "test-1"} 2 (by decide)
      (by decide)).trans (by decide)

/-- Witness for C5: both branches of the characterization at concrete
inputs. -/
theorem generateFeatureFlagKey_spec_witness :
    generateFeatureFlagKey "Hello World" ({"taken"} : Finset String) = "hello-world" ∧
    generateFeatureFlagKey "test" ({"test"} : Finset String) = "test-1" :=
  ⟨((generateFeatureFlagKey_spec "Hello World" {"taken"}).1 (by decide)).trans (by decide),
   (generateFeatureFlagKey_spec "test" {"test"}).2.2.2.1⟩

lemma toLower_of_disallowed (c : Char) (h : isAllowedChar c = false) :
    Char.toLower c = c := by
  unfold Char.toLower
  rw [if_neg]
  intro hcond
  simp only [isAllowedChar, Bool.or_eq_false_iff, Bool.and_eq_false_iff,
    decide_eq_false_iff_not] at h
  obtain ⟨⟨⟨⟨hrange, _⟩, _⟩, _⟩, _⟩ := h
  obtain ⟨hc1, hc2⟩ := hcond
  rcases hrange with h1 | h1 <;> omega

lemma collapseDisallowed_true_of_all_disallowed :
    ∀ l : List Char, (∀ c ∈ l, isAllowedChar c = false) →
      collapseDisallowed true l = [] := by
  intro l
  induction l with
  | nil => intro _; rfl
  | cons c rest ih =>
    intro h
    have hc := h c (by simp)
    simp [collapseDisallowed, hc, ih (fun d hd => h d (by simp [hd]))]

lemma collapseDisallowed_false_of_all_disallowed (l : List Char)
    (h : ∀ c ∈ l, isAllowedChar c = false) :
    collapseDisallowed false l = [] ∨ collapseDisallowed false l = ['-'] := by
  cases l with
  | nil => exact Or.inl rfl
  | cons c rest =>
    right
    have hc := h c (by simp)
    simp [collapseDisallowed, hc,
      collapseDisallowed_true_of_all_disallowed rest (fun d hd => h d (by simp [hd]))]

lemma normalizeKeyBase_of_all_disallowed (name : String)
    (h : ∀ c ∈ name.data, isAllowedChar c = false) : normalizeKeyBase name = "" := by
  unfold normalizeKeyBase
  have hmap : ∀ c ∈ name.data.map Char.toLower, isAllowedChar c = false := by
    intro c hc
    rcases List.mem_map.mp hc with ⟨a, ha, rfl⟩
    rw [toLower_of_disallowed a (h a ha)]
    exact h a ha
  rcases collapseDisallowed_false_of_all_disallowed _ hmap with h0 | h0 <;>
    rw [h0] <;> decide

lemma candidateKey_empty_ne_empty (k : Nat) (hk : 1 ≤ k) : candidateKey "" k ≠ "" := by
  intro heq
  have h2 := candidateKey_length_of_ne_zero "" k (by omega)
  rw [heq] at h2
  omega

/-- C6 counterexample: the name "!!!" consists only of characters outside
the allowed class, yet with an empty reserved set `generateFeatureFlagKey`
returns the empty string — not a non-empty string of the form "-1",
"-2", ... as the claim states. -/
theorem empty_base_key_counterexample :
    (∀ c ∈ ("!!!" : String).data, isAllowedChar c = false) ∧
    generateFeatureFlagKey "!!!" (∅ : Finset String) = "" := by
  refine ⟨by decide, ?_⟩
  exact (generateFeatureFlagKey_eq_of "!!!" ∅ 0 (by decide)
    (by intro j hj; exact absurd hj (by omega))).trans (by decide)

/-- Claim C6 amended: for a name consisting only of disallowed characters
the normalized base is empty, and `generateFeatureFlagKey` never throws
(it is total): it returns the empty string when the empty string is not
itself reserved, and a non-empty dash-suffixed candidate ("-1", "-2",
...) when it is. -/
theorem empty_base_key_amended (name : String) (reserved : Finset String)
    (h : ∀ c ∈ name.data, isAllowedChar c = false) :
    normalizeKeyBase name = "" ∧
    (("" : String) ∉ reserved → generateFeatureFlagKey name reserved = "") ∧
    (("" : String) ∈ reserved →
      generateFeatureFlagKey name reserved ≠ "" ∧
      ∃ k, 1 ≤ k ∧ generateFeatureFlagKey name reserved = candidateKey "" k) := by
  have hbase := normalizeKeyBase_of_all_disallowed name h
  obtain ⟨k, hgen, hfree, hmin⟩ := gen_key_characterization name reserved
  rw [hbase] at hgen hfree hmin
  refine ⟨hbase, ?_, ?_⟩
  · intro hmem
    have hk0 : k = 0 := by
      by_contra hk
      exact hmem (hmin 0 (by omega))
    rw [hk0] at hgen
    exact hgen
  · intro hmem
    have hk1 : 1 ≤ k := by
      rcases Nat.eq_zero_or_pos k with h0 | hpos
      · exfalso
        rw [h0] at hfree
        exact hfree hmem
      · exact hpos
    refine ⟨?_, k, hk1, hgen⟩
    rw [hgen]
    exact candidateKey_empty_ne_empty k hk1

/-- Witness for C6 amended: both branches at concrete inputs. -/
theorem empty_base_key_amended_witness :
    normalizeKeyBase "??" = "" ∧
    generateFeatureFlagKey "??" ({"x"} : Finset String) = "" ∧
    generateFeatureFlagKey "??" ({""} : Finset String) ≠ "" :=
  ⟨(empty_base_key_amended "??" {"x"} (by decide)).1,
   (empty_base_key_amended "??" {"x"} (by decide)).2.1 (by decide),
   ((empty_base_key_amended "??" {""} (by decide)).2.2 (by decide)).1⟩

lemma validateFeatureFlagKey_ok (key : String) (results : List FeatureFlagType)
    (h : jsTrim key ≠ "") :
    validateFeatureFlagKey key (RegistryResponse.ok results) =
      if (results.any fun flag => flag.key == key) = true then
        { error := some "This feature flag key is already in use",
          value := some false, remoteCalled := true }
      else { error := none, value := some true, remoteCalled := true } := by
  unfold validateFeatureFlagKey
  rw [if_neg h]

lemma validateFeatureFlagKey_err (key : String) (h : jsTrim key ≠ "") :
    validateFeatureFlagKey key RegistryResponse.err =
      { error := some "Error validating feature flag key", value := none,
        remoteCalled := true } := by
  unfold validateFeatureFlagKey
  rw [if_neg h]

/-- Claim C7: `validateFeatureFlagKey` on an empty (or whitespace-only)
key fails immediately with the required-field error without a remote
call; on a non-empty key a successful lookup yields the taken state with
the already-in-use reason exactly when some returned record's key equals
the candidate exactly, the available state when none does, and a remote
failure yields the non-fatal validation-error state. -/
theorem validateFeatureFlagKey_spec (key : String) (response : RegistryResponse)
    (results : List FeatureFlagType) :
    (jsTrim key = "" →
      validateFeatureFlagKey key response =
        { error := some "Feature flag key is required", value := none,
          remoteCalled := false }) ∧
    (jsTrim key ≠ "" →
      (validateFeatureFlagKey key (RegistryResponse.ok results) =
          { error := some "This feature flag key is already in use",
            value := some false, remoteCalled := true } ↔
        ∃ flag ∈ results, flag.key = key) ∧
      ((∀ flag ∈ results, flag.key ≠ key) →
        validateFeatureFlagKey key (RegistryResponse.ok results) =
          { error := none, value := some true, remoteCalled := true }) ∧
      validateFeatureFlagKey key RegistryResponse.err =
        { error := some "Error validating feature flag key", value := none,
          remoteCalled := true }) := by
  constructor
  · intro h
    unfold validateFeatureFlagKey
    rw [if_pos h]
  · intro h
    refine ⟨?_, ?_, ?_⟩
    · rw [validateFeatureFlagKey_ok key results h]
      by_cases hany : (results.any fun flag => flag.key == key) = true
      · rw [if_pos hany]
        simp only [List.any_eq_true, beq_iff_eq] at hany
        simp only [true_iff, iff_true]
        exact hany
      · rw [if_neg hany]
        simp only [List.any_eq_true, beq_iff_eq] at hany
        constructor
        · intro heq
          exact absurd heq (by simp)
        · intro hex
          exact absurd hex hany
    · intro hall
      rw [validateFeatureFlagKey_ok key results h, if_neg]
      simp only [List.any_eq_true, beq_iff_eq]
      rintro ⟨flag, hmem, heq⟩
      exact hall flag hmem heq
    · exact validateFeatureFlagKey_err key h

/-- Witness for C7: a taken key, and a whitespace-only key, at concrete
inputs. -/
theorem validateFeatureFlagKey_spec_witness :
    validateFeatureFlagKey "my-key" (RegistryResponse.ok [{ key := "my-key" }]) =
      { error := some "This feature flag key is already in use",
        value := some false, remoteCalled := true } ∧
    validateFeatureFlagKey "  " (RegistryResponse.ok []) =
      { error := some "Feature flag key is required", value := none,
        remoteCalled := false } :=
  ⟨((validateFeatureFlagKey_spec "my-key"
        (RegistryResponse.ok [{ key := "my-key" }]) [{ key := "my-key" }]).2
      (by decide)).1.mpr ⟨{ key := "my-key" }, by simp, rfl⟩,
   (validateFeatureFlagKey_spec "  " (RegistryResponse.ok []) []).1 (by decide)⟩

/-- C3 counterexample: issue validation for "a", then for "ab"; the
response for "ab" (available) arrives first and the response for "a"
(taken) arrives second.  The final visible state carries the superseded
candidate "a"'s taken result even though the most recently issued
candidate is "ab", whose own result was the available state — the source
applies every response unconditionally, contradicting the claim for this
arrival order. -/
theorem stale_response_counterexample :
    (runValidator initValidatorState
        [ValidatorEvent.issue "a", ValidatorEvent.issue "ab",
         ValidatorEvent.arrive "ab" (RegistryResponse.ok []),
         ValidatorEvent.arrive "a" (RegistryResponse.ok [{ key := "a" }])]).currentKey
        = "ab" ∧
    (runValidator initValidatorState
        [ValidatorEvent.issue "a", ValidatorEvent.issue "ab",
         ValidatorEvent.arrive "ab" (RegistryResponse.ok []),
         ValidatorEvent.arrive "a" (RegistryResponse.ok [{ key := "a" }])]).error
        = some "This feature flag key is already in use" ∧
    (runValidator initValidatorState
        [ValidatorEvent.issue "a", ValidatorEvent.issue "ab",
         ValidatorEvent.arrive "ab" (RegistryResponse.ok []),
         ValidatorEvent.arrive "a" (RegistryResponse.ok [{ key := "a" }])]).value
        = some false ∧
    validateFeatureFlagKey "ab" (RegistryResponse.ok []) =
      { error := none, value := some true, remoteCalled := true } := by decide

/-- Claim C3 amended: the final visible validation state reflects
whichever response arrives last, irrespective of which candidate was
issued most recently; responses for superseded candidates are applied
unconditionally rather than discarded. -/
theorem last_arrival_wins (st : ValidatorState) (events : List ValidatorEvent)
    (key : String) (response : RegistryResponse) :
    (runValidator st (events ++ [ValidatorEvent.arrive key response])).error =
      (validateFeatureFlagKey key response).error ∧
    (runValidator st (events ++ [ValidatorEvent.arrive key response])).value =
      (validateFeatureFlagKey key response).value := by
  unfold runValidator
  rw [List.foldl_append]
  exact ⟨rfl, rfl⟩

/-- C4 counterexample: with a non-blank name and key but variant shares
summing to 90 (≠ 100), `saveAsDraft` still reaches the submit call — the
claim that submission is blocked whenever the sum differs from 100 fails
at this input. -/
theorem save_gate_counterexample :
    ¬ (variantPercentageSum
          [{ key := "control", name := "", rollout_percentage := 50 },
           { key := "test", name := "", rollout_percentage := 40 }] ≠ 100 →
        saveAsDraftSubmits FeatureFlagMode.new none
          { name := "My experiment", feature_flag_key := "my-experiment",
            parameters_feature_flag_variants :=
              [{ key := "control", name := "", rollout_percentage := 50 },
               { key := "test", name := "", rollout_percentage := 40 }] } = false) := by
  intro h
  exact absurd (h (by decide)) (by decide)

/-- Claim C4 amended: `saveAsDraft` submits the form iff the mode/selection
precondition holds (an existing-mode save needs a selected flag) and the
name and feature-flag-key fields are non-blank; the variant percentage
sum never gates submission — a sum different from 100 only drives the
warning banner. -/
theorem save_gate_amended (mode : FeatureFlagMode) (sel : Option FeatureFlagType)
    (form : ExperimentForm) :
    (saveAsDraftSubmits mode sel form = true ↔
      ((mode = FeatureFlagMode.existing → sel ≠ none) ∧
        jsTrim form.name ≠ "" ∧ jsTrim form.feature_flag_key ≠ "")) ∧
    (rolloutWarningShown form.parameters_feature_flag_variants = true ↔
      variantPercentageSum form.parameters_feature_flag_variants ≠ 100) := by
  constructor
  · unfold saveAsDraftSubmits hasFormErrors experimentFormErrors
    by_cases hn : jsTrim form.name = "" <;>
      by_cases hk : jsTrim form.feature_flag_key = "" <;>
        cases mode <;> cases sel <;> simp [hn, hk]
  · unfold rolloutWarningShown
    simp [bne_iff_ne]

end CreateExperiment
